import Mathlib

/-!
# Verification of the mortgage amortization engine

Shallow embedding of `calculate` and `handleSubmit` from `src/App.jsx` of the
mortgage-calculator repository.  JavaScript numbers are modelled as exact
rationals (`ℚ`); every arithmetic operation of the source is mirrored
one-for-one.  The `while (principal > EPSILON)` loop of the source is modelled
with an explicit fuel parameter (`outerLoop`); termination for valid inputs is
proved separately, and a flat month-by-month view (`flatRun`) is related to the
nested year/month loop by `outerLoop_join`.
-/

namespace Mortgage

/-- `const EPSILON = 0.01;` (source line 6). -/
def EPSILON : ℚ := 1 / 100

/-- `const termYears = [1, 2, ..., 30];` (source line 87): the selectable loan
terms in years, indexed by the `loanTerm` select value `0..29`. -/
def termYears : List ℕ :=
  [1, 2, 3, 4, 5, 6, 7, 8, 9, 10, 11, 12, 13, 14, 15, 16, 17, 18, 19, 20,
   21, 22, 23, 24, 25, 26, 27, 28, 29, 30]

/-- One entry pushed onto `monthlyPayments` (source lines 121-126). -/
structure MonthRecord where
  interestPayment : ℚ
  principalPayment : ℚ
  principal : ℚ
  totalPaid : ℚ
deriving Repr, DecidableEq

/-- The mutable loop state of `calculate`: `principal` and `totalPaid`
(source lines 98-99). -/
structure LoopState where
  principal : ℚ
  totalPaid : ℚ
deriving Repr, DecidableEq

/-- The fixed monthly payment (source lines 93-96):
`i = interest / 12`, `a = i * (1+i)^termMonths`, `b = (1+i)^termMonths - 1`,
`monthlyPayment = (loanAmount * a) / b`. -/
def monthlyPayment (loanAmount interest : ℚ) (termMonths : ℕ) : ℚ :=
  let i := interest / 12
  let a := i * (1 + i) ^ termMonths
  let b := (1 + i) ^ termMonths - 1
  loanAmount * a / b

/-- One iteration of the inner month loop body (source lines 107-126):
compute the interest and principal portions, clamp the principal portion to the
remaining principal, update `principal` and `totalPaid`, snap a residue of at
most `EPSILON` to zero, and emit the month record. -/
def monthStep (interest monthlyPay extraPrincipal : ℚ) (s : LoopState) :
    MonthRecord × LoopState :=
  let interestPayment := s.principal * interest / 12
  let principalPayment :=
    if s.principal ≤ monthlyPay + extraPrincipal - interestPayment then
      s.principal
    else
      monthlyPay + extraPrincipal - interestPayment
  let principal1 := s.principal - principalPayment
  let totalPaid1 := s.totalPaid + (interestPayment + principalPayment)
  let principal2 := if principal1 ≤ EPSILON then 0 else principal1
  (⟨interestPayment, principalPayment, principal2, totalPaid1⟩,
   ⟨principal2, totalPaid1⟩)

/-- The inner `for (let j = 0; j < 12; j++)` loop (source lines 106-131),
with its `break` once the (post-snap) principal is at most `EPSILON`. -/
def yearLoop (interest monthlyPay extraPrincipal : ℚ) :
    ℕ → LoopState → List MonthRecord × LoopState
  | 0, s => ([], s)
  | j + 1, s =>
    let p := monthStep interest monthlyPay extraPrincipal s
    if p.2.principal ≤ EPSILON then ([p.1], p.2)
    else
      let q := yearLoop interest monthlyPay extraPrincipal j p.2
      (p.1 :: q.1, q.2)

/-- The outer `while (principal > EPSILON)` loop (source lines 103-135), with
an explicit fuel parameter standing for the unbounded iteration of the source:
each iteration runs a year of up to 12 months and pushes the (always nonempty)
month list. -/
def outerLoop (interest monthlyPay extraPrincipal : ℚ) :
    ℕ → LoopState → List (List MonthRecord) × LoopState
  | 0, s => ([], s)
  | f + 1, s =>
    if EPSILON < s.principal then
      let y := yearLoop interest monthlyPay extraPrincipal 12 s
      let r := outerLoop interest monthlyPay extraPrincipal f y.2
      (if y.1.isEmpty then r.1 else y.1 :: r.1, r.2)
    else ([], s)

/-- A flat month-by-month view of the same loop, ignoring the grouping into
years: each step runs one month while `principal > EPSILON` holds.
`outerLoop_join` proves it equivalent to `outerLoop`. -/
def flatRun (interest monthlyPay extraPrincipal : ℚ) :
    ℕ → LoopState → List MonthRecord × LoopState
  | 0, s => ([], s)
  | k + 1, s =>
    if EPSILON < s.principal then
      let p := monthStep interest monthlyPay extraPrincipal s
      let q := flatRun interest monthlyPay extraPrincipal k p.2
      (p.1 :: q.1, q.2)
    else ([], s)

/-- The loop state after `k` flat month steps. -/
def runState (interest monthlyPay extraPrincipal : ℚ) (k : ℕ) (s : LoopState) :
    LoopState :=
  (flatRun interest monthlyPay extraPrincipal k s).2

/-- The value returned by `calculate` (source lines 168-174), before
presentation formatting: the fixed monthly payment, the accumulated
`totalPaid`, `totalYears = payments.length`, and the year-grouped schedule. -/
structure CalcResult where
  monthlyPayment : ℚ
  totalPaid : ℚ
  totalYears : ℕ
  payments : List (List MonthRecord)
deriving Repr, DecidableEq

/-- `calculate(loanAmount, interest, loanTerm, extraPrincipal)` (source lines
86-175).  `loanTerm` is the select index `0..29`; `termMonths =
termYears[loanTerm] * 12`.  `fuel` bounds the source's unbounded `while` loop. -/
def calculate (loanAmount interest : ℚ) (loanTerm : ℕ) (extraPrincipal : ℚ)
    (fuel : ℕ) : CalcResult :=
  let termMonths := (termYears.getD loanTerm 0) * 12
  let mp := monthlyPayment loanAmount interest termMonths
  let r := outerLoop interest mp extraPrincipal fuel ⟨loanAmount, 0⟩
  ⟨mp, r.2.totalPaid, r.1.length, r.1⟩

/-- The three validation failures of `handleSubmit` (source lines 192-197). -/
inductive SubmitError where
  | loanAmountInvalid
  | interestInvalid
  | extraMonthlyPaymentInvalid
deriving Repr, DecidableEq

/-- The validation of `handleSubmit` (source lines 192-197) on already-parsed
numbers: `!loanAmount` rejects exactly `0`, `!interest` rejects exactly `0`,
and the extra monthly payment is rejected when negative.  (The `isNaN` checks
concern unparsable strings, which have no counterpart among the rationals.) -/
def validate (loanAmount interest extraMonthlyPayment : ℚ) :
    Option SubmitError :=
  if loanAmount = 0 then some .loanAmountInvalid
  else if interest = 0 then some .interestInvalid
  else if extraMonthlyPayment < 0 then some .extraMonthlyPaymentInvalid
  else none

/-- `handleSubmit` (source lines 185-201) on parsed numbers: scale the percent
interest by `0.01`, validate, and only then call `calculate`. -/
def handleSubmit (loanAmount interestPercent extraMonthlyPayment : ℚ)
    (loanTerm : ℕ) (fuel : ℕ) : Except SubmitError CalcResult :=
  let interest := interestPercent * (1 / 100)
  match validate loanAmount interest extraMonthlyPayment with
  | some e => .error e
  | none => .ok (calculate loanAmount interest loanTerm extraMonthlyPayment fuel)

/-- The ideal annuity balance after `k` months: the balance obtained by
compounding one month of interest and subtracting the fixed payment, with no
clamping and no snap-to-zero.  Used to compare the engine's schedule with the
closed-form amortization path. -/
def annuityBalance (loanAmount interest monthlyPay : ℚ) : ℕ → ℚ
  | 0 => loanAmount
  | k + 1 => annuityBalance loanAmount interest monthlyPay k * (1 + interest / 12)
      - monthlyPay

/-! ## Structural lemmas about the embedded loop -/

/-- The emitted month record carries the same (post-snap) principal as the
updated loop state. -/
lemma monthStep_fst_principal (rate pay ext : ℚ) (s : LoopState) :
    (monthStep rate pay ext s).1.principal = (monthStep rate pay ext s).2.principal := rfl

/-- The emitted month record carries the same running total as the updated
loop state. -/
lemma monthStep_fst_totalPaid (rate pay ext : ℚ) (s : LoopState) :
    (monthStep rate pay ext s).1.totalPaid = (monthStep rate pay ext s).2.totalPaid := rfl

/-- The interest portion of a month is `principal * interest / 12`. -/
lemma monthStep_interest (rate pay ext : ℚ) (s : LoopState) :
    (monthStep rate pay ext s).1.interestPayment = s.principal * rate / 12 := rfl

/-- The principal portion of a month: `payment + extra - interest`, clamped to
the remaining principal. -/
lemma monthStep_principalPayment (rate pay ext : ℚ) (s : LoopState) :
    (monthStep rate pay ext s).1.principalPayment =
      if s.principal ≤ pay + ext - s.principal * rate / 12 then s.principal
      else pay + ext - s.principal * rate / 12 := rfl

/-- The updated principal: subtract the principal portion, then snap a residue
of at most `EPSILON` to zero. -/
lemma monthStep_snd_principal (rate pay ext : ℚ) (s : LoopState) :
    (monthStep rate pay ext s).2.principal =
      if s.principal - (monthStep rate pay ext s).1.principalPayment ≤ EPSILON then 0
      else s.principal - (monthStep rate pay ext s).1.principalPayment := rfl

/-- The updated running total: add the interest and principal portions. -/
lemma monthStep_snd_totalPaid (rate pay ext : ℚ) (s : LoopState) :
    (monthStep rate pay ext s).2.totalPaid =
      s.totalPaid + (s.principal * rate / 12 + (monthStep rate pay ext s).1.principalPayment) := rfl

/-- The pre-snap principal is never negative: the clamp guarantees the
principal portion never exceeds the remaining principal. -/
lemma monthStep_presnap_nonneg (rate pay ext : ℚ) (s : LoopState) :
    0 ≤ s.principal - (monthStep rate pay ext s).1.principalPayment := by
  rw [monthStep_principalPayment]
  split_ifs with h
  · simp
  · push_neg at h
    linarith

/-- After a month step the principal is either exactly `0` (snapped) or above
`EPSILON`. -/
lemma monthStep_principal_zero_or_gt (rate pay ext : ℚ) (s : LoopState) :
    (monthStep rate pay ext s).2.principal = 0 ∨
      EPSILON < (monthStep rate pay ext s).2.principal := by
  rw [monthStep_snd_principal]
  split_ifs with h
  · exact Or.inl rfl
  · exact Or.inr (lt_of_not_le h)

/-- While the principal is at most `EPSILON` the loop does nothing. -/
lemma flatRun_stall (rate pay ext : ℚ) (k : ℕ) (s : LoopState)
    (h : s.principal ≤ EPSILON) :
    flatRun rate pay ext k s = ([], s) := by
  cases k with
  | zero => rfl
  | succ k => simp [flatRun, not_lt.2 h]

/-- Unfolding one running iteration of the flat loop. -/
lemma flatRun_cons (rate pay ext : ℚ) (k : ℕ) (s : LoopState)
    (h : EPSILON < s.principal) :
    flatRun rate pay ext (k + 1) s =
      ((monthStep rate pay ext s).1 ::
          (flatRun rate pay ext k (monthStep rate pay ext s).2).1,
        (flatRun rate pay ext k (monthStep rate pay ext s).2).2) := by
  simp [flatRun, h]

/-- Splitting a flat run into two consecutive runs. -/
lemma flatRun_add (rate pay ext : ℚ) (a b : ℕ) (s : LoopState) :
    flatRun rate pay ext (a + b) s =
      ((flatRun rate pay ext a s).1 ++
          (flatRun rate pay ext b (flatRun rate pay ext a s).2).1,
        (flatRun rate pay ext b (flatRun rate pay ext a s).2).2) := by
  induction a generalizing s with
  | zero => simp [flatRun]
  | succ a ih =>
    by_cases h : EPSILON < s.principal
    · rw [Nat.succ_add, flatRun_cons rate pay ext (a + b) s h,
        flatRun_cons rate pay ext a s h, ih]
      simp
    · push_neg at h
      rw [flatRun_stall rate pay ext (a + 1 + b) s h,
        flatRun_stall rate pay ext (a + 1) s h, flatRun_stall rate pay ext b s h]
      simp

/-- Composing loop states of consecutive flat runs. -/
lemma runState_add (rate pay ext : ℚ) (a b : ℕ) (s : LoopState) :
    runState rate pay ext (a + b) s =
      runState rate pay ext b (runState rate pay ext a s) := by
  unfold runState
  rw [flatRun_add]

/-- A flat run that emits no record leaves the state unchanged. -/
lemma flatRun_nil_state (rate pay ext : ℚ) (k : ℕ) (s : LoopState)
    (h : (flatRun rate pay ext k s).1 = []) :
    (flatRun rate pay ext k s).2 = s := by
  cases k with
  | zero => rfl
  | succ k =>
    by_cases hg : EPSILON < s.principal
    · rw [flatRun_cons rate pay ext k s hg] at h
      simp at h
    · push_neg at hg
      rw [flatRun_stall rate pay ext (k + 1) s hg]

/-- A flat run that emits a record starts above `EPSILON`. -/
lemma flatRun_ne_nil_gt (rate pay ext : ℚ) (k : ℕ) (s : LoopState)
    (h : (flatRun rate pay ext k s).1 ≠ []) :
    EPSILON < s.principal := by
  by_contra hg
  push_neg at hg
  rw [flatRun_stall rate pay ext k s hg] at h
  simp at h

/-- Once the loop is entered, the inner 12-month loop agrees with the flat
run: the `break` of the source fires exactly when the flat run's guard
fails. -/
lemma yearLoop_eq_flatRun (rate pay ext : ℚ) :
    ∀ (j : ℕ) (s : LoopState), EPSILON < s.principal →
      yearLoop rate pay ext j s = flatRun rate pay ext j s := by
  intro j
  induction j with
  | zero => intro s _; rfl
  | succ j ih =>
    intro s h
    rw [flatRun_cons rate pay ext j s h]
    show (if (monthStep rate pay ext s).2.principal ≤ EPSILON then _ else _) = _
    split_ifs with hb
    · rw [flatRun_stall rate pay ext j _ hb]
    · push_neg at hb
      rw [ih _ hb]

/-- The nested year/month loop of the source and the flat month loop agree:
the concatenation of the year blocks is the flat record list, and the final
states coincide.  (Each year consumes 12 units of flat fuel.) -/
lemma outerLoop_join (rate pay ext : ℚ) :
    ∀ (f : ℕ) (s : LoopState),
      (outerLoop rate pay ext f s).1.flatten = (flatRun rate pay ext (12 * f) s).1 ∧
      (outerLoop rate pay ext f s).2 = (flatRun rate pay ext (12 * f) s).2 := by
  intro f
  induction f with
  | zero => intro s; simp [outerLoop, flatRun]
  | succ f ih =>
    intro s
    by_cases h : EPSILON < s.principal
    · have h12 : 12 * (f + 1) = 12 + 12 * f := by ring
      rw [h12, flatRun_add rate pay ext 12 (12 * f) s]
      simp only [outerLoop, if_pos h]
      rw [yearLoop_eq_flatRun rate pay ext 12 s h]
      obtain ⟨ih1, ih2⟩ := ih (flatRun rate pay ext 12 s).2
      refine ⟨?_, by simpa using ih2⟩
      by_cases he : (flatRun rate pay ext 12 s).1.isEmpty
      · rw [if_pos he]
        rw [List.isEmpty_iff] at he
        simp [he, ih1]
      · rw [if_neg he]
        simp [ih1]
    · push_neg at h
      rw [flatRun_stall rate pay ext (12 * (f + 1)) s h]
      simp only [outerLoop, if_neg (not_lt.2 h)]
      simp

/-! ## Quantitative lemmas: invariants, decrease, termination -/

/-- One month of a valid loan: the principal stays in `[0, s.principal]` and
either snaps to zero or decreases by at least
`pay + ext - P0 * rate / 12`, the slack of the payment over the largest
possible interest charge. -/
lemma monthStep_invariant (rate pay ext P0 : ℚ) (s : LoopState)
    (hr : 0 ≤ rate) (hpay : P0 * rate / 12 < pay + ext)
    (h0 : 0 ≤ s.principal) (h1 : s.principal ≤ P0) :
    0 ≤ (monthStep rate pay ext s).2.principal ∧
    (monthStep rate pay ext s).2.principal ≤ s.principal ∧
    ((monthStep rate pay ext s).2.principal = 0 ∨
      (monthStep rate pay ext s).2.principal ≤
        s.principal - (pay + ext - P0 * rate / 12)) := by
  have hint : s.principal * rate / 12 ≤ P0 * rate / 12 := by
    have := mul_le_mul_of_nonneg_right h1 hr
    linarith
  rw [monthStep_snd_principal, monthStep_principalPayment]
  split_ifs with hclamp hsnap hsnap
  · exact ⟨le_refl 0, h0, Or.inl rfl⟩
  · simp at hsnap
    norm_num [EPSILON] at hsnap
  · exact ⟨le_refl 0, h0, Or.inl rfl⟩
  · push_neg at hclamp hsnap
    refine ⟨by linarith, by linarith, Or.inr (by linarith)⟩

/-- For a valid loan the principal never leaves `[0, initial]` along the flat
run. -/
lemma flatRun_state_bounds (rate pay ext P0 : ℚ)
    (hr : 0 ≤ rate) (hpay : P0 * rate / 12 < pay + ext) :
    ∀ (k : ℕ) (s : LoopState), 0 ≤ s.principal → s.principal ≤ P0 →
      0 ≤ (runState rate pay ext k s).principal ∧
      (runState rate pay ext k s).principal ≤ s.principal := by
  intro k
  induction k with
  | zero => intro s h0 h1; exact ⟨h0, le_refl _⟩
  | succ k ih =>
    intro s h0 h1
    by_cases hg : EPSILON < s.principal
    · have hstep := monthStep_invariant rate pay ext P0 s hr hpay h0 h1
      have hrun : runState rate pay ext (k + 1) s =
          runState rate pay ext k (monthStep rate pay ext s).2 := by
        unfold runState
        rw [flatRun_cons rate pay ext k s hg]
      rw [hrun]
      obtain ⟨ih0, ih1⟩ := ih (monthStep rate pay ext s).2 hstep.1
        (le_trans hstep.2.1 h1)
      exact ⟨ih0, le_trans ih1 hstep.2.1⟩
    · push_neg at hg
      unfold runState
      rw [flatRun_stall rate pay ext (k + 1) s hg]
      exact ⟨h0, le_refl _⟩

/-- Termination bound: once the fuel covers `initial principal / payment
slack` months, the flat run has driven the principal to at most `EPSILON`. -/
lemma flatRun_terminates (rate pay ext P0 : ℚ)
    (hr : 0 ≤ rate) (hpay : P0 * rate / 12 < pay + ext) :
    ∀ (k : ℕ) (s : LoopState), 0 ≤ s.principal → s.principal ≤ P0 →
      s.principal ≤ EPSILON + k * (pay + ext - P0 * rate / 12) →
      (runState rate pay ext k s).principal ≤ EPSILON := by
  intro k
  induction k with
  | zero =>
    intro s _ _ hk
    simpa [runState, flatRun] using by linarith
  | succ k ih =>
    intro s h0 h1 hk
    by_cases hg : EPSILON < s.principal
    · have hstep := monthStep_invariant rate pay ext P0 s hr hpay h0 h1
      have hrun : runState rate pay ext (k + 1) s =
          runState rate pay ext k (monthStep rate pay ext s).2 := by
        unfold runState
        rw [flatRun_cons rate pay ext k s hg]
      rw [hrun]
      rcases hstep.2.2 with hz | hdec
      · have hstop : (monthStep rate pay ext s).2.principal ≤ EPSILON := by
          rw [hz]; norm_num [EPSILON]
        unfold runState
        rw [flatRun_stall rate pay ext k _ hstop]
        exact hstop
      · apply ih (monthStep rate pay ext s).2 hstep.1 (le_trans hstep.2.1 h1)
        have : ((k : ℚ) + 1) * (pay + ext - P0 * rate / 12) =
            (k : ℚ) * (pay + ext - P0 * rate / 12) +
              (pay + ext - P0 * rate / 12) := by ring
        push_cast at hk ⊢
        linarith
    · push_neg at hg
      unfold runState
      rw [flatRun_stall rate pay ext (k + 1) s hg]
      exact hg

/-- The annuity payment strictly exceeds one month of interest on the full
principal: `P0 * rate / 12 < monthlyPayment P0 rate n` for a valid loan. -/
lemma monthlyPayment_gt_interest (P0 rate : ℚ) (n : ℕ)
    (hP : 0 < P0) (hr : 0 < rate) (hn : n ≠ 0) :
    P0 * rate / 12 < monthlyPayment P0 rate n := by
  have hi : 0 < rate / 12 := by positivity
  have hX : 1 < (1 + rate / 12) ^ n := one_lt_pow₀ (by linarith) hn
  have hXpos : (0:ℚ) < (1 + rate / 12) ^ n - 1 := by linarith
  show P0 * rate / 12 < P0 * (rate / 12 * (1 + rate / 12) ^ n) /
    ((1 + rate / 12) ^ n - 1)
  rw [lt_div_iff₀ hXpos]
  have h1 : P0 * rate / 12 = P0 * (rate / 12) := by ring
  rw [h1]
  have h2 : 0 < P0 * (rate / 12) := by positivity
  nlinarith [h2, hX]

/-! ## Lemmas about the emitted records -/

/-- Every emitted record's remaining principal is exactly `0` or above
`EPSILON`: the snap leaves no value in `(0, EPSILON]`. -/
lemma flatRun_mem_zero_or_gt (rate pay ext : ℚ) :
    ∀ (k : ℕ) (s : LoopState) (r : MonthRecord),
      r ∈ (flatRun rate pay ext k s).1 →
      r.principal = 0 ∨ EPSILON < r.principal := by
  intro k
  induction k with
  | zero => intro s r hr; simp [flatRun] at hr
  | succ k ih =>
    intro s r hr
    by_cases hg : EPSILON < s.principal
    · rw [flatRun_cons rate pay ext k s hg] at hr
      rcases List.mem_cons.1 hr with h | h
      · rw [h, monthStep_fst_principal]
        exact monthStep_principal_zero_or_gt rate pay ext s
      · exact ih _ r h
    · push_neg at hg
      rw [flatRun_stall rate pay ext (k + 1) s hg] at hr
      simp at hr

/-- When records were emitted, the last record's remaining principal is the
final loop state's principal. -/
lemma flatRun_getLastD (rate pay ext : ℚ) :
    ∀ (k : ℕ) (s : LoopState) (d : MonthRecord),
      (flatRun rate pay ext k s).1 ≠ [] →
      ((flatRun rate pay ext k s).1.getLastD d).principal =
        (flatRun rate pay ext k s).2.principal := by
  intro k
  induction k with
  | zero => intro s d h; simp [flatRun] at h
  | succ k ih =>
    intro s d h
    by_cases hg : EPSILON < s.principal
    · rw [flatRun_cons rate pay ext k s hg]
      by_cases hrest : (flatRun rate pay ext k (monthStep rate pay ext s).2).1 = []
      · have hstate := flatRun_nil_state rate pay ext k _ hrest
        simp only [hrest, List.getLastD_cons, List.getLastD_nil, hstate]
        exact monthStep_fst_principal rate pay ext s
      · simp only [List.getLastD_cons]
        exact ih _ _ hrest
    · push_neg at hg
      rw [flatRun_stall rate pay ext (k + 1) s hg] at h
      simp at h

/-- Every record other than the last keeps the principal strictly above
`EPSILON` (otherwise the loop would have stopped). -/
lemma flatRun_earlier_gt (rate pay ext : ℚ) :
    ∀ (k : ℕ) (s : LoopState) (n : ℕ) (d : MonthRecord),
      n + 1 < (flatRun rate pay ext k s).1.length →
      EPSILON < ((flatRun rate pay ext k s).1.getD n d).principal := by
  intro k
  induction k with
  | zero => intro s n d h; simp [flatRun] at h
  | succ k ih =>
    intro s n d h
    by_cases hg : EPSILON < s.principal
    · rw [flatRun_cons rate pay ext k s hg] at h ⊢
      cases n with
      | zero =>
        simp only [List.getD_cons_zero]
        have hlen : (flatRun rate pay ext k (monthStep rate pay ext s).2).1 ≠ [] := by
          intro hnil
          rw [hnil] at h
          simp at h
        have := flatRun_ne_nil_gt rate pay ext k _ hlen
        rw [monthStep_fst_principal]
        exact this
      | succ n =>
        simp only [List.getD_cons_succ]
        apply ih
        simpa using Nat.lt_of_succ_lt_succ h
    · push_neg at hg
      rw [flatRun_stall rate pay ext (k + 1) s hg] at h
      simp at h

/-- For a valid loan every emitted record has a non-negative remaining
principal bounded by the starting principal, and the remaining principals are
non-increasing along the schedule. -/
lemma flatRun_records_bounds (rate pay ext P0 : ℚ)
    (hr : 0 ≤ rate) (hpay : P0 * rate / 12 < pay + ext) :
    ∀ (k : ℕ) (s : LoopState), 0 ≤ s.principal → s.principal ≤ P0 →
      (∀ r ∈ (flatRun rate pay ext k s).1,
        0 ≤ r.principal ∧ r.principal ≤ s.principal) ∧
      List.Chain' (fun a b : MonthRecord => b.principal ≤ a.principal)
        (flatRun rate pay ext k s).1 := by
  intro k
  induction k with
  | zero => intro s _ _; simp [flatRun]
  | succ k ih =>
    intro s h0 h1
    by_cases hg : EPSILON < s.principal
    · have hstep := monthStep_invariant rate pay ext P0 s hr hpay h0 h1
      obtain ⟨ihmem, ihchain⟩ := ih (monthStep rate pay ext s).2 hstep.1
        (le_trans hstep.2.1 h1)
      rw [flatRun_cons rate pay ext k s hg]
      constructor
      · intro r hrmem
        rcases List.mem_cons.1 hrmem with h | h
        · rw [h, monthStep_fst_principal]
          exact ⟨hstep.1, hstep.2.1⟩
        · obtain ⟨ha, hb⟩ := ihmem r h
          exact ⟨ha, le_trans hb hstep.2.1⟩
      · rw [List.chain'_cons']
        refine ⟨?_, ihchain⟩
        intro b hb
        have hbmem : b ∈ (flatRun rate pay ext k (monthStep rate pay ext s).2).1 :=
          List.mem_of_mem_head? hb
        rw [monthStep_fst_principal]
        exact (ihmem b hbmem).2
    · push_neg at hg
      rw [flatRun_stall rate pay ext (k + 1) s hg]
      simp

/-- Accounting invariant: along any flat run, `totalPaid + principal` differs
from its initial value plus the emitted interest by at most `EPSILON` — the
only loss is the final snap-to-zero, which forgives at most `EPSILON` of
principal. -/
lemma flatRun_totalPaid_bounds (rate pay ext : ℚ) :
    ∀ (k : ℕ) (s : LoopState),
      s.totalPaid + s.principal - EPSILON ≤
        (flatRun rate pay ext k s).2.totalPaid +
          (flatRun rate pay ext k s).2.principal -
          ((flatRun rate pay ext k s).1.map MonthRecord.interestPayment).sum ∧
      (flatRun rate pay ext k s).2.totalPaid +
          (flatRun rate pay ext k s).2.principal -
          ((flatRun rate pay ext k s).1.map MonthRecord.interestPayment).sum ≤
        s.totalPaid + s.principal := by
  intro k
  induction k with
  | zero =>
    intro s
    constructor
    · simp only [flatRun, List.map_nil, List.sum_nil]
      norm_num [EPSILON]
    · simp [flatRun]
  | succ k ih =>
    intro s
    by_cases hg : EPSILON < s.principal
    · rw [flatRun_cons rate pay ext k s hg]
      have hpre := monthStep_presnap_nonneg rate pay ext s
      set pp := (monthStep rate pay ext s).1.principalPayment with hpp
      by_cases hsnap : s.principal - pp ≤ EPSILON
      · have hps : (monthStep rate pay ext s).2.principal = 0 := by
          rw [monthStep_snd_principal, ← hpp, if_pos hsnap]
        have hstall :
            flatRun rate pay ext k (monthStep rate pay ext s).2 =
              ([], (monthStep rate pay ext s).2) := by
          apply flatRun_stall
          rw [hps]
          norm_num [EPSILON]
        rw [hstall]
        simp only [List.map_cons, List.map_nil, List.sum_cons, List.sum_nil]
        rw [monthStep_interest, monthStep_snd_totalPaid, hps]
        constructor <;> linarith
      · push_neg at hsnap
        have hps : (monthStep rate pay ext s).2.principal = s.principal - pp := by
          rw [monthStep_snd_principal, ← hpp, if_neg (not_le.2 hsnap)]
        obtain ⟨iha, ihb⟩ := ih (monthStep rate pay ext s).2
        rw [monthStep_snd_totalPaid, hps] at iha ihb
        simp only [List.map_cons, List.sum_cons]
        rw [monthStep_interest]
        constructor <;> linarith
    · push_neg at hg
      rw [flatRun_stall rate pay ext (k + 1) s hg]
      constructor
      · simp only [List.map_nil, List.sum_nil]
        norm_num [EPSILON]
      · simp

/-! ## The ideal annuity path -/

/-- Closed form of the ideal annuity balance. -/
lemma annuityBalance_closed (P0 rate pay : ℚ) (hr : rate ≠ 0) :
    ∀ k : ℕ, annuityBalance P0 rate pay k =
      P0 * (1 + rate / 12) ^ k - pay * ((1 + rate / 12) ^ k - 1) / (rate / 12) := by
  have hi : rate / 12 ≠ 0 := div_ne_zero hr (by norm_num)
  intro k
  induction k with
  | zero => simp [annuityBalance]
  | succ k ih =>
    show annuityBalance P0 rate pay k * (1 + rate / 12) - pay = _
    rw [ih, pow_succ]
    field_simp
    ring

/-- With the engine's fixed payment, the ideal annuity balance is exactly
zero after the scheduled `n` months. -/
lemma annuityBalance_payoff (P0 rate : ℚ) (n : ℕ) (hr : 0 < rate) (hn : n ≠ 0) :
    annuityBalance P0 rate (monthlyPayment P0 rate n) n = 0 := by
  have hi : 0 < rate / 12 := by positivity
  have hX : 1 < (1 + rate / 12) ^ n := one_lt_pow₀ (by linarith) hn
  have hXne : (1 + rate / 12) ^ n - 1 ≠ 0 := by linarith
  rw [annuityBalance_closed P0 rate _ (ne_of_gt hr) n]
  show P0 * (1 + rate / 12) ^ n -
      P0 * (rate / 12 * (1 + rate / 12) ^ n) / ((1 + rate / 12) ^ n - 1) *
        ((1 + rate / 12) ^ n - 1) / (rate / 12) = 0
  rw [div_mul_cancel₀ _ hXne, mul_comm (rate / 12) ((1 + rate / 12) ^ n),
    ← mul_assoc, mul_div_assoc, div_self (ne_of_gt hi), mul_one, sub_self]

/-- As long as the payment beats the worst-case month of interest, the ideal
balance strictly decreases and stays below the starting principal. -/
lemma annuityBalance_decreasing (P0 rate pay : ℚ)
    (hr : 0 ≤ rate) (hpay : P0 * rate / 12 < pay) :
    ∀ k : ℕ, annuityBalance P0 rate pay (k + 1) < annuityBalance P0 rate pay k ∧
      annuityBalance P0 rate pay k ≤ P0 := by
  intro k
  induction k with
  | zero =>
    constructor
    · show P0 * (1 + rate / 12) - pay < P0
      linarith
    · exact le_refl _
  | succ k ih =>
    obtain ⟨ihlt, ihle⟩ := ih
    have hle : annuityBalance P0 rate pay (k + 1) ≤ P0 := le_trans (le_of_lt ihlt) ihle
    constructor
    · show annuityBalance P0 rate pay (k + 1) * (1 + rate / 12) - pay <
        annuityBalance P0 rate pay (k + 1)
      have : annuityBalance P0 rate pay (k + 1) * rate ≤ P0 * rate :=
        mul_le_mul_of_nonneg_right hle hr
      nlinarith
    · exact hle

/-- The ideal balance is antitone in the month index. -/
lemma annuityBalance_antitone (P0 rate pay : ℚ)
    (hr : 0 ≤ rate) (hpay : P0 * rate / 12 < pay) :
    ∀ a b : ℕ, a ≤ b → annuityBalance P0 rate pay b ≤ annuityBalance P0 rate pay a := by
  intro a b hab
  induction b, hab using Nat.le_induction with
  | base => exact le_refl _
  | succ b _ ih =>
    exact le_trans (le_of_lt (annuityBalance_decreasing P0 rate pay hr hpay b).1) ih

/-- If the ideal balance reaches zero at month `m + 1`, the balance one month
earlier is the discounted payment `pay / (1 + rate/12)`. -/
lemma annuityBalance_pred (P0 rate pay : ℚ) (m : ℕ)
    (h1i : (1 : ℚ) + rate / 12 ≠ 0)
    (hz : annuityBalance P0 rate pay (m + 1) = 0) :
    annuityBalance P0 rate pay m = pay / (1 + rate / 12) := by
  have h : annuityBalance P0 rate pay m * (1 + rate / 12) - pay = 0 := hz
  rw [eq_div_iff h1i]
  linarith

/-- One running flat step is a single month step. -/
lemma runState_one (rate pay ext : ℚ) (s : LoopState) (h : EPSILON < s.principal) :
    runState rate pay ext 1 s = (monthStep rate pay ext s).2 := by
  unfold runState
  rw [flatRun_cons rate pay ext 0 s h]
  rfl

/-- A run of zero months is the identity. -/
lemma runState_zero (rate pay ext : ℚ) (s : LoopState) :
    runState rate pay ext 0 s = s := rfl

/-- The engine's principal never exceeds the ideal annuity balance (until the
loop has already stopped): extra payments, the clamp and the snap only ever
reduce the balance relative to the ideal path. -/
lemma flatRun_le_annuity (rate pay ext P0 : ℚ)
    (hr : 0 < rate) (hext : 0 ≤ ext) :
    ∀ k : ℕ, (runState rate pay ext k ⟨P0, 0⟩).principal ≤ EPSILON ∨
      (runState rate pay ext k ⟨P0, 0⟩).principal ≤ annuityBalance P0 rate pay k := by
  intro k
  induction k with
  | zero => exact Or.inr (le_refl _)
  | succ k ih =>
    have hsplit : runState rate pay ext (k + 1) ⟨P0, 0⟩ =
        runState rate pay ext 1 (runState rate pay ext k ⟨P0, 0⟩) :=
      runState_add rate pay ext k 1 ⟨P0, 0⟩
    set t := runState rate pay ext k ⟨P0, 0⟩ with ht
    by_cases hg : EPSILON < t.principal
    · rcases ih with hstop | hle
      · exact absurd hg (not_lt.2 hstop)
      · rw [hsplit, runState_one rate pay ext t hg]
        rw [monthStep_snd_principal, monthStep_principalPayment]
        split_ifs with hclamp hsnap hsnap
        · exact Or.inl (by norm_num [EPSILON])
        · simp only [sub_self] at hsnap
          exact absurd (by norm_num [EPSILON] : (0:ℚ) ≤ EPSILON) hsnap
        · exact Or.inl (by norm_num [EPSILON])
        · push_neg at hclamp hsnap
          refine Or.inr ?_
          show t.principal - (pay + ext - t.principal * rate / 12) ≤
            annuityBalance P0 rate pay k * (1 + rate / 12) - pay
          have hmul : t.principal * (1 + rate / 12) ≤
              annuityBalance P0 rate pay k * (1 + rate / 12) :=
            mul_le_mul_of_nonneg_right hle (by linarith)
          nlinarith
    · push_neg at hg
      rw [hsplit]
      unfold runState
      rw [flatRun_stall rate pay ext 1 t hg]
      exact Or.inl hg

/-! ## Counting the produced years -/

/-- Entering the loop produces at least one month record. -/
lemma flatRun_succ_ne_nil (rate pay ext : ℚ) (j : ℕ) (s : LoopState)
    (h : EPSILON < s.principal) :
    (flatRun rate pay ext (j + 1) s).1 ≠ [] := by
  rw [flatRun_cons rate pay ext j s h]
  simp

/-- If the flat run has stopped by month `12 * T`, at most `T` year blocks are
produced, whatever the fuel. -/
lemma outerLoop_length_le (rate pay ext : ℚ) :
    ∀ (T F : ℕ) (s : LoopState),
      (runState rate pay ext (12 * T) s).principal ≤ EPSILON →
      (outerLoop rate pay ext F s).1.length ≤ T := by
  intro T
  induction T with
  | zero =>
    intro F s h
    rw [runState_zero] at h
    cases F with
    | zero => simp [outerLoop]
    | succ F => simp [outerLoop, not_lt.2 h]
  | succ T ih =>
    intro F s h
    cases F with
    | zero => simp [outerLoop]
    | succ F =>
      by_cases hg : EPSILON < s.principal
      · simp only [outerLoop, if_pos hg]
        rw [yearLoop_eq_flatRun rate pay ext 12 s hg]
        have hne : (flatRun rate pay ext 12 s).1 ≠ [] :=
          flatRun_succ_ne_nil rate pay ext 11 s hg
        have hemp : (flatRun rate pay ext 12 s).1.isEmpty = false := by
          simpa [List.isEmpty_iff] using hne
        rw [hemp]
        simp only [Bool.false_eq_true, if_false, List.length_cons]
        have h12 : 12 * (T + 1) = 12 + 12 * T := by ring
        rw [h12, runState_add rate pay ext 12 (12 * T) s] at h
        exact Nat.succ_le_succ (ih F (runState rate pay ext 12 s) h)
      · simp [outerLoop, hg]

/-- If the loop runs for exactly `12 * T` months, then with enough fuel it
produces exactly `T` year blocks. -/
lemma outerLoop_length_eq (rate pay ext : ℚ) :
    ∀ (T F : ℕ) (s : LoopState),
      (∀ k, k < 12 * T → EPSILON < (runState rate pay ext k s).principal) →
      (runState rate pay ext (12 * T) s).principal ≤ EPSILON →
      T ≤ F →
      (outerLoop rate pay ext F s).1.length = T := by
  intro T
  induction T with
  | zero =>
    intro F s _ h _
    rw [runState_zero] at h
    cases F with
    | zero => simp [outerLoop]
    | succ F => simp [outerLoop, not_lt.2 h]
  | succ T ih =>
    intro F s hrun h hTF
    cases F with
    | zero => exact absurd hTF (by simp)
    | succ F =>
      have hg : EPSILON < s.principal := by
        have := hrun 0 (by positivity)
        rwa [runState_zero] at this
      simp only [outerLoop, if_pos hg]
      rw [yearLoop_eq_flatRun rate pay ext 12 s hg]
      have hne : (flatRun rate pay ext 12 s).1 ≠ [] :=
        flatRun_succ_ne_nil rate pay ext 11 s hg
      have hemp : (flatRun rate pay ext 12 s).1.isEmpty = false := by
        simpa [List.isEmpty_iff] using hne
      rw [hemp]
      simp only [Bool.false_eq_true, if_false, List.length_cons]
      have h12 : 12 * (T + 1) = 12 + 12 * T := by ring
      rw [h12, runState_add rate pay ext 12 (12 * T) s] at h
      have hrun2 : ∀ k, k < 12 * T →
          EPSILON < (runState rate pay ext k (runState rate pay ext 12 s)).principal := by
        intro k hk
        rw [← runState_add rate pay ext 12 k s]
        exact hrun (12 + k) (by omega)
      exact congrArg Nat.succ
        (ih F (runState rate pay ext 12 s) hrun2 h (Nat.le_of_succ_le_succ hTF))

/-! ## Exact tracking of the ideal path, and further helpers -/

/-- Unfolding of the ideal balance recurrence. -/
lemma annuityBalance_succ (P0 rate pay : ℚ) (k : ℕ) :
    annuityBalance P0 rate pay (k + 1) =
      annuityBalance P0 rate pay k * (1 + rate / 12) - pay := rfl

/-- The final loop state is the initial one (loop never entered), or it ends
with a snapped zero, or it is still above `EPSILON` (fuel ran out). -/
lemma flatRun_final_cases (rate pay ext : ℚ) :
    ∀ (k : ℕ) (s : LoopState),
      (flatRun rate pay ext k s).2 = s ∨
      (flatRun rate pay ext k s).2.principal = 0 ∨
      EPSILON < (flatRun rate pay ext k s).2.principal := by
  intro k
  induction k with
  | zero => intro s; exact Or.inl rfl
  | succ k ih =>
    intro s
    by_cases hg : EPSILON < s.principal
    · rw [flatRun_cons rate pay ext k s hg]
      rcases ih (monthStep rate pay ext s).2 with h | h
      · rw [h]
        exact Or.inr (monthStep_principal_zero_or_gt rate pay ext s)
      · exact Or.inr h
    · push_neg at hg
      rw [flatRun_stall rate pay ext (k + 1) s hg]
      exact Or.inl rfl

/-- The last element with default of a nonempty list is a member. -/
lemma getLastD_mem {α : Type} : ∀ (l : List α) (d : α), l ≠ [] → l.getLastD d ∈ l := by
  intro l
  induction l with
  | nil => intro d h; exact absurd rfl h
  | cons a t ih =>
    intro d _
    rw [List.getLastD_cons]
    cases t with
    | nil => simp
    | cons b u => exact List.mem_cons_of_mem a (ih a (by simp))

/-- The term select array maps index `t < 30` to `t + 1` years. -/
lemma termYears_getD : ∀ t : ℕ, t < 30 → termYears.getD t 0 = t + 1 := by decide

/-- `calculate` returns the annuity payment for `termYears[loanTerm] * 12`
months. -/
lemma calculate_monthlyPayment (loanAmount interest : ℚ) (loanTerm : ℕ)
    (extraPrincipal : ℚ) (fuel : ℕ) :
    (calculate loanAmount interest loanTerm extraPrincipal fuel).monthlyPayment =
      monthlyPayment loanAmount interest ((termYears.getD loanTerm 0) * 12) := rfl

/-- `totalYears` is the number of year blocks produced by the loop. -/
lemma calculate_totalYears (loanAmount interest : ℚ) (loanTerm : ℕ)
    (extraPrincipal : ℚ) (fuel : ℕ) :
    (calculate loanAmount interest loanTerm extraPrincipal fuel).totalYears =
      (outerLoop interest
        (monthlyPayment loanAmount interest ((termYears.getD loanTerm 0) * 12))
        extraPrincipal fuel ⟨loanAmount, 0⟩).1.length := rfl

/-- `totalPaid` is the loop's accumulated total. -/
lemma calculate_totalPaid (loanAmount interest : ℚ) (loanTerm : ℕ)
    (extraPrincipal : ℚ) (fuel : ℕ) :
    (calculate loanAmount interest loanTerm extraPrincipal fuel).totalPaid =
      (outerLoop interest
        (monthlyPayment loanAmount interest ((termYears.getD loanTerm 0) * 12))
        extraPrincipal fuel ⟨loanAmount, 0⟩).2.totalPaid := rfl

/-- `payments` is the loop's year-grouped schedule. -/
lemma calculate_payments (loanAmount interest : ℚ) (loanTerm : ℕ)
    (extraPrincipal : ℚ) (fuel : ℕ) :
    (calculate loanAmount interest loanTerm extraPrincipal fuel).payments =
      (outerLoop interest
        (monthlyPayment loanAmount interest ((termYears.getD loanTerm 0) * 12))
        extraPrincipal fuel ⟨loanAmount, 0⟩).1 := rfl

/-- With no extra payment, while the ideal balance stays above `EPSILON` the
engine's principal follows the ideal annuity path exactly: no clamp and no
snap ever fires. -/
lemma flatRun_tracks_annuity (rate pay P0 : ℚ) (n : ℕ)
    (hq : ∀ j, j < n → EPSILON < annuityBalance P0 rate pay j) :
    ∀ k, k < n →
      (runState rate pay 0 k ⟨P0, 0⟩).principal = annuityBalance P0 rate pay k := by
  intro k
  induction k with
  | zero => intro _; rfl
  | succ k ih =>
    intro h
    have hk : k < n := Nat.lt_of_succ_lt h
    have htrack := ih hk
    have hg : EPSILON < (runState rate pay 0 k ⟨P0, 0⟩).principal := by
      rw [htrack]; exact hq k hk
    have hsplit : runState rate pay 0 (k + 1) ⟨P0, 0⟩ =
        runState rate pay 0 1 (runState rate pay 0 k ⟨P0, 0⟩) :=
      runState_add rate pay 0 k 1 ⟨P0, 0⟩
    rw [hsplit, runState_one rate pay 0 _ hg, monthStep_snd_principal,
      monthStep_principalPayment, htrack]
    have hnext := hq (k + 1) h
    rw [annuityBalance_succ] at hnext ⊢
    have hnext0 : (0 : ℚ) < annuityBalance P0 rate pay k * (1 + rate / 12) - pay := by
      have : (0:ℚ) < EPSILON := by norm_num [EPSILON]
      linarith
    rw [if_neg (show ¬ (annuityBalance P0 rate pay k ≤
        pay + 0 - annuityBalance P0 rate pay k * rate / 12) by intro hcl; linarith)]
    rw [if_neg (show ¬ (annuityBalance P0 rate pay k -
        (pay + 0 - annuityBalance P0 rate pay k * rate / 12) ≤ EPSILON) by
      intro hsn; linarith)]
    ring

/-- With no extra payment, once the ideal balance reaches exactly zero at
month `m + 1` while staying above `EPSILON` before, the engine's loop clamps
the final payment and ends month `m + 1` with principal exactly `0`. -/
lemma flatRun_payoff_exact (rate pay P0 : ℚ) (m : ℕ)
    (hq : ∀ j, j < m + 1 → EPSILON < annuityBalance P0 rate pay j)
    (hz : annuityBalance P0 rate pay (m + 1) = 0) :
    (runState rate pay 0 (m + 1) ⟨P0, 0⟩).principal = 0 := by
  have htrack := flatRun_tracks_annuity rate pay P0 (m + 1) hq m (Nat.lt_succ_self m)
  have hg : EPSILON < (runState rate pay 0 m ⟨P0, 0⟩).principal := by
    rw [htrack]; exact hq m (Nat.lt_succ_self m)
  have hsplit : runState rate pay 0 (m + 1) ⟨P0, 0⟩ =
      runState rate pay 0 1 (runState rate pay 0 m ⟨P0, 0⟩) :=
    runState_add rate pay 0 m 1 ⟨P0, 0⟩
  rw [hsplit, runState_one rate pay 0 _ hg, monthStep_snd_principal,
    monthStep_principalPayment, htrack]
  rw [annuityBalance_succ] at hz
  rw [if_pos (show annuityBalance P0 rate pay m ≤
      pay + 0 - annuityBalance P0 rate pay m * rate / 12 by linarith)]
  rw [sub_self]
  rw [if_pos (show (0:ℚ) ≤ EPSILON by norm_num [EPSILON])]

/-- When the fixed payment plus the extra payment is not positive, every
month's interest exceeds it, so the loop makes no progress: the principal
never decreases, every iteration emits a record, and the loop never exits. -/
lemma flatRun_no_progress (rate pay ext : ℚ) (hr : 0 < rate) (hpe : pay + ext ≤ 0) :
    ∀ (k : ℕ) (s : LoopState), EPSILON < s.principal →
      s.principal ≤ (runState rate pay ext k s).principal ∧
      EPSILON < (runState rate pay ext k s).principal ∧
      (flatRun rate pay ext k s).1.length = k := by
  intro k
  induction k with
  | zero => intro s h; exact ⟨le_refl _, h, rfl⟩
  | succ k ih =>
    intro s h
    have hppos : 0 < s.principal := lt_trans (by norm_num [EPSILON]) h
    have hint : 0 < s.principal * rate / 12 := by positivity
    have hpay : (monthStep rate pay ext s).1.principalPayment =
        pay + ext - s.principal * rate / 12 := by
      rw [monthStep_principalPayment, if_neg (by intro hcl; linarith)]
    have hstep : (monthStep rate pay ext s).2.principal =
        s.principal - (pay + ext - s.principal * rate / 12) := by
      rw [monthStep_snd_principal, hpay, if_neg (by intro hsn; linarith)]
    have hgrow : s.principal ≤ (monthStep rate pay ext s).2.principal := by
      rw [hstep]; linarith
    have hg1 : EPSILON < (monthStep rate pay ext s).2.principal :=
      lt_of_lt_of_le h hgrow
    obtain ⟨iha, ihb, ihc⟩ := ih (monthStep rate pay ext s).2 hg1
    refine ⟨?_, ?_, ?_⟩
    · have : runState rate pay ext (k + 1) s =
          runState rate pay ext k (monthStep rate pay ext s).2 := by
        unfold runState
        rw [flatRun_cons rate pay ext k s h]
      rw [this]
      exact le_trans hgrow iha
    · have : runState rate pay ext (k + 1) s =
          runState rate pay ext k (monthStep rate pay ext s).2 := by
        unfold runState
        rw [flatRun_cons rate pay ext k s h]
      rw [this]
      exact ihb
    · rw [flatRun_cons rate pay ext k s h]
      simp [ihc]

/-- Each month adds at most `pay + ext` to `totalPaid` (the clamp can only
shrink the principal portion), so the accumulated total is bounded by the
number of months times `pay + ext`. -/
lemma flatRun_totalPaid_le_months (rate pay ext : ℚ) :
    ∀ (k : ℕ) (s : LoopState),
      (flatRun rate pay ext k s).2.totalPaid ≤
        s.totalPaid + ((flatRun rate pay ext k s).1.length : ℚ) * (pay + ext) := by
  intro k
  induction k with
  | zero => intro s; simp [flatRun]
  | succ k ih =>
    intro s
    by_cases hg : EPSILON < s.principal
    · rw [flatRun_cons rate pay ext k s hg]
      have hmonth : (monthStep rate pay ext s).2.totalPaid ≤
          s.totalPaid + (pay + ext) := by
        rw [monthStep_snd_totalPaid, monthStep_principalPayment]
        split_ifs with hclamp
        · linarith
        · linarith
      have := ih (monthStep rate pay ext s).2
      simp only [List.length_cons]
      push_cast
      linarith
    · push_neg at hg
      rw [flatRun_stall rate pay ext (k + 1) s hg]
      simp

/-- For a valid loan every month except the final clamped one adds exactly
`pay + ext` to `totalPaid`, so the accumulated total is at least the number
of months minus one times `pay + ext`. -/
lemma flatRun_totalPaid_ge_months (rate pay ext P0 : ℚ)
    (hr : 0 ≤ rate) (hpay : P0 * rate / 12 < pay + ext) :
    ∀ (k : ℕ) (s : LoopState), 0 ≤ s.principal → s.principal ≤ P0 →
      s.totalPaid + (((flatRun rate pay ext k s).1.length - 1 : ℕ) : ℚ) * (pay + ext) ≤
        (flatRun rate pay ext k s).2.totalPaid := by
  intro k
  induction k with
  | zero => intro s _ _; simp [flatRun]
  | succ k ih =>
    intro s h0 h1
    have hd : (0 : ℚ) < pay + ext := by
      have : (0:ℚ) ≤ P0 * rate / 12 :=
        div_nonneg (mul_nonneg (le_trans h0 h1) hr) (by norm_num)
      linarith
    by_cases hg : EPSILON < s.principal
    · rw [flatRun_cons rate pay ext k s hg]
      have hint : (0:ℚ) ≤ s.principal * rate / 12 :=
        div_nonneg (mul_nonneg h0 hr) (by norm_num)
      by_cases hclamp : s.principal ≤ pay + ext - s.principal * rate / 12
      · have hpp : (monthStep rate pay ext s).1.principalPayment = s.principal := by
          rw [monthStep_principalPayment, if_pos hclamp]
        have hps : (monthStep rate pay ext s).2.principal = 0 := by
          rw [monthStep_snd_principal, hpp, sub_self,
            if_pos (show (0:ℚ) ≤ EPSILON by norm_num [EPSILON])]
        have hstall : flatRun rate pay ext k (monthStep rate pay ext s).2 =
            ([], (monthStep rate pay ext s).2) := by
          apply flatRun_stall
          rw [hps]
          norm_num [EPSILON]
        rw [hstall]
        simp only [List.length_cons, List.length_nil]
        rw [monthStep_snd_totalPaid, hpp]
        norm_num
        linarith
      · have hpp : (monthStep rate pay ext s).1.principalPayment =
            pay + ext - s.principal * rate / 12 := by
          rw [monthStep_principalPayment, if_neg hclamp]
        have htp1 : (monthStep rate pay ext s).2.totalPaid =
            s.totalPaid + (pay + ext) := by
          rw [monthStep_snd_totalPaid, hpp]
          ring
        have hinv := monthStep_invariant rate pay ext P0 s hr hpay h0 h1
        have hih := ih (monthStep rate pay ext s).2 hinv.1 (le_trans hinv.2.1 h1)
        rw [htp1] at hih
        simp only [List.length_cons]
        rcases Nat.eq_zero_or_pos ((flatRun rate pay ext k
            (monthStep rate pay ext s).2).1.length) with hlen | hlen
        · rw [hlen] at hih ⊢
          norm_num at hih ⊢
          linarith
        · obtain ⟨l, hl⟩ := Nat.exists_eq_add_of_lt hlen
          rw [hl] at hih ⊢
          have e1 : (0 + l + 1 + 1 - 1 : ℕ) = l + 1 := by omega
          have e2 : (0 + l + 1 - 1 : ℕ) = l := by omega
          rw [e1]
          rw [e2] at hih
          push_cast at hih ⊢
          linarith
    · push_neg at hg
      rw [flatRun_stall rate pay ext (k + 1) s hg]
      simp

/-! ## The claims -/

/-- **C1.** For every valid input (positive principal and rate, term index in
range) the engine's fixed monthly payment equals
`principal * i * (1+i)^n / ((1+i)^n - 1)` with `i = annualRate / 12` and
`n = termYears * 12` (`termYears = loanTerm + 1`), computed once per call,
and its value is independent of the extra monthly payment (and of the loop
fuel). -/
theorem c1_payment_formula (loanAmount interest extra1 extra2 : ℚ)
    (loanTerm fuel1 fuel2 : ℕ) (_hP : 0 < loanAmount) (_hr : 0 < interest)
    (hterm : loanTerm < 30) :
    (calculate loanAmount interest loanTerm extra1 fuel1).monthlyPayment =
      loanAmount * (interest / 12) * (1 + interest / 12) ^ ((loanTerm + 1) * 12) /
        ((1 + interest / 12) ^ ((loanTerm + 1) * 12) - 1) ∧
    (calculate loanAmount interest loanTerm extra1 fuel1).monthlyPayment =
      (calculate loanAmount interest loanTerm extra2 fuel2).monthlyPayment := by
  constructor
  · rw [calculate_monthlyPayment, termYears_getD loanTerm hterm]
    show loanAmount * (interest / 12 * (1 + interest / 12) ^ ((loanTerm + 1) * 12)) /
        ((1 + interest / 12) ^ ((loanTerm + 1) * 12) - 1) = _
    ring
  · rfl

/-- Witness for C1 at the scenario-A inputs. -/
theorem c1_payment_formula_witness :
    (calculate 500000 (609 / 10000) 29 0 30).monthlyPayment =
      500000 * ((609 / 10000 : ℚ) / 12) * (1 + (609 / 10000 : ℚ) / 12) ^ ((29 + 1) * 12) /
        ((1 + (609 / 10000 : ℚ) / 12) ^ ((29 + 1) * 12) - 1) ∧
    (calculate 500000 (609 / 10000) 29 0 30).monthlyPayment =
      (calculate 500000 (609 / 10000) 29 500 30).monthlyPayment :=
  c1_payment_formula 500000 (609 / 10000) 0 500 29 30 30 (by norm_num) (by norm_num)
    (by norm_num)

/-- `validate` accepts exactly the inputs with nonzero principal, nonzero
rate and non-negative extra payment. -/
lemma validate_eq_none_iff (loanAmount interest extra : ℚ) :
    validate loanAmount interest extra = none ↔
      loanAmount ≠ 0 ∧ interest ≠ 0 ∧ 0 ≤ extra := by
  unfold validate
  split_ifs with h1 h2 h3 <;> simp_all [not_lt]

/-- **C5 (amended).** `handleSubmit` validates before computing, but the
checks reject only a zero principal, a zero rate, or a negative extra
payment: a negative principal or negative rate is accepted and forwarded to
`calculate`, and the term is never validated. -/
theorem c5_validation (loanAmount interestPercent extra : ℚ) (loanTerm fuel : ℕ) :
    (handleSubmit loanAmount interestPercent extra loanTerm fuel =
        .ok (calculate loanAmount (interestPercent * (1 / 100)) loanTerm extra fuel) ↔
      loanAmount ≠ 0 ∧ interestPercent ≠ 0 ∧ 0 ≤ extra) ∧
    ((∃ e, handleSubmit loanAmount interestPercent extra loanTerm fuel =
        Except.error e) ↔
      loanAmount = 0 ∨ interestPercent = 0 ∨ extra < 0) := by
  have hpct : interestPercent * (1 / 100) = 0 ↔ interestPercent = 0 := by
    constructor
    · intro h
      rcases mul_eq_zero.1 h with h | h
      · exact h
      · norm_num at h
    · intro h; rw [h]; ring
  cases hv : validate loanAmount (interestPercent * (1 / 100)) extra with
  | none =>
    have hok : handleSubmit loanAmount interestPercent extra loanTerm fuel =
        .ok (calculate loanAmount (interestPercent * (1 / 100)) loanTerm extra fuel) := by
      simp only [handleSubmit, hv]
    have hcond := (validate_eq_none_iff _ _ _).1 hv
    constructor
    · constructor
      · intro _
        exact ⟨hcond.1, fun h0 => hcond.2.1 (hpct.2 h0), hcond.2.2⟩
      · intro _
        exact hok
    · constructor
      · rintro ⟨e, he⟩
        rw [hok] at he
        exact absurd he (by simp)
      · intro hbad
        rcases hbad with h | h | h
        · exact absurd h hcond.1
        · exact absurd (hpct.2 h) hcond.2.1
        · exact absurd hcond.2.2 (not_le.2 h)
  | some e =>
    have herr : handleSubmit loanAmount interestPercent extra loanTerm fuel =
        Except.error e := by
      simp only [handleSubmit, hv]
    have hbad : ¬ (loanAmount ≠ 0 ∧ interestPercent * (1 / 100) ≠ 0 ∧ 0 ≤ extra) := by
      intro hc
      rw [(validate_eq_none_iff _ _ _).2 hc] at hv
      exact Option.noConfusion hv
    constructor
    · constructor
      · intro hok
        rw [herr] at hok
        exact absurd hok (by simp)
      · intro hc
        exact absurd ⟨hc.1, fun h0 => hc.2.1 (hpct.1 h0), hc.2.2⟩ hbad
    · constructor
      · intro _
        by_contra hno
        push_neg at hno
        exact hbad ⟨hno.1, fun h0 => hno.2.1 (hpct.1 h0), hno.2.2⟩
      · intro _
        exact ⟨e, herr⟩

/-- Witness for C5 at concrete accepted and rejected inputs. -/
theorem c5_validation_witness :
    (handleSubmit 500000 (609 / 100) 0 29 1 =
        .ok (calculate 500000 ((609 / 100) * (1 / 100)) 29 0 1) ↔
      (500000 : ℚ) ≠ 0 ∧ (609 / 100 : ℚ) ≠ 0 ∧ (0 : ℚ) ≤ 0) ∧
    ((∃ e, handleSubmit 500000 (609 / 100) 0 29 1 = Except.error e) ↔
      (500000 : ℚ) = 0 ∨ (609 / 100 : ℚ) = 0 ∨ (0 : ℚ) < 0) :=
  c5_validation 500000 (609 / 100) 0 29 1

set_option maxRecDepth 100000 in
/-- **C5 counterexample.** A strictly negative principal passes validation:
`handleSubmit` reports no `InvalidParameterError` and runs the computation,
returning a (degenerate) result with zero years. -/
theorem c5_counterexample :
    ((-100000 : ℚ) < 0) ∧
    handleSubmit (-100000) (609 / 100) 0 29 1 =
      .ok (calculate (-100000) ((609 / 100) * (1 / 100)) 29 0 1) ∧
    (calculate ((-100000 : ℚ)) ((609 / 100) * (1 / 100)) 29 0 1).totalYears = 0 := by
  refine ⟨by norm_num, ?_, ?_⟩
  · have hv : validate (-100000) ((609 / 100) * (1 / 100)) 0 = none := by
      with_unfolding_all decide
    simp only [handleSubmit, hv]
  · with_unfolding_all decide

/-- **C7.** For every valid input the month-by-month loop terminates: enough
fuel drives the remaining principal to at most `EPSILON`, because the fixed
payment strictly exceeds every month's interest portion. -/
theorem c7_loop_terminates (loanAmount interest extra : ℚ) (loanTerm : ℕ)
    (hP : 0 < loanAmount) (hr : 0 < interest) (hterm : loanTerm < 30)
    (hext : 0 ≤ extra) :
    ∃ fuel : ℕ,
      (outerLoop interest
        (monthlyPayment loanAmount interest ((termYears.getD loanTerm 0) * 12))
        extra fuel ⟨loanAmount, 0⟩).2.principal ≤ EPSILON := by
  have hn : (termYears.getD loanTerm 0) * 12 ≠ 0 := by
    rw [termYears_getD loanTerm hterm]
    positivity
  have hgt := monthlyPayment_gt_interest loanAmount interest _ hP hr hn
  have hslack : loanAmount * interest / 12 <
      monthlyPayment loanAmount interest ((termYears.getD loanTerm 0) * 12) + extra := by
    linarith
  have hd : (0:ℚ) < monthlyPayment loanAmount interest ((termYears.getD loanTerm 0) * 12) +
      extra - loanAmount * interest / 12 := by linarith
  obtain ⟨k, hk⟩ := exists_nat_ge ((loanAmount - EPSILON) /
    (monthlyPayment loanAmount interest ((termYears.getD loanTerm 0) * 12) + extra -
      loanAmount * interest / 12))
  have hbound : loanAmount ≤ EPSILON + k *
      (monthlyPayment loanAmount interest ((termYears.getD loanTerm 0) * 12) + extra -
        loanAmount * interest / 12) := by
    rw [div_le_iff₀ hd] at hk
    linarith
  have hstop := flatRun_terminates interest
    (monthlyPayment loanAmount interest ((termYears.getD loanTerm 0) * 12)) extra
    loanAmount (le_of_lt hr) hslack k ⟨loanAmount, 0⟩ (le_of_lt hP) (le_refl _) hbound
  refine ⟨k, ?_⟩
  rw [(outerLoop_join interest
    (monthlyPayment loanAmount interest ((termYears.getD loanTerm 0) * 12)) extra k
    ⟨loanAmount, 0⟩).2]
  show (runState interest
    (monthlyPayment loanAmount interest ((termYears.getD loanTerm 0) * 12)) extra
    (12 * k) ⟨loanAmount, 0⟩).principal ≤ EPSILON
  have h12 : 12 * k = k + 11 * k := by ring
  rw [h12, runState_add]
  have hstall : runState interest
      (monthlyPayment loanAmount interest ((termYears.getD loanTerm 0) * 12)) extra
      (11 * k) (runState interest
        (monthlyPayment loanAmount interest ((termYears.getD loanTerm 0) * 12)) extra
        k ⟨loanAmount, 0⟩) =
      runState interest
        (monthlyPayment loanAmount interest ((termYears.getD loanTerm 0) * 12)) extra
        k ⟨loanAmount, 0⟩ := by
    show (flatRun interest
      (monthlyPayment loanAmount interest ((termYears.getD loanTerm 0) * 12)) extra
      (11 * k) (runState interest
        (monthlyPayment loanAmount interest ((termYears.getD loanTerm 0) * 12)) extra
        k ⟨loanAmount, 0⟩)).2 = _
    rw [flatRun_stall interest
      (monthlyPayment loanAmount interest ((termYears.getD loanTerm 0) * 12)) extra
      (11 * k) (runState interest
        (monthlyPayment loanAmount interest ((termYears.getD loanTerm 0) * 12)) extra
        k ⟨loanAmount, 0⟩) hstop]
  rw [hstall]
  exact hstop

/-- Witness for C7 at a small valid loan. -/
theorem c7_loop_terminates_witness :
    ∃ fuel : ℕ,
      (outerLoop (12 / 100)
        (monthlyPayment 1000 (12 / 100) ((termYears.getD 0 0) * 12))
        0 fuel ⟨1000, 0⟩).2.principal ≤ EPSILON :=
  c7_loop_terminates 1000 (12 / 100) 0 0 (by norm_num) (by norm_num) (by norm_num)
    (by norm_num)

/-- **C2.** For every valid input the remaining principals recorded in the
schedule are non-negative and non-increasing month to month, and — with no
extra payment — once the loop has terminated the last record's remaining
principal is exactly `0`, well within the stated `0.01` tolerance. -/
theorem c2_principal_invariants (loanAmount interest extra : ℚ) (loanTerm fuel : ℕ)
    (hP : 0 < loanAmount) (hr : 0 < interest) (hterm : loanTerm < 30)
    (hext : 0 ≤ extra) :
    (∀ r ∈ (calculate loanAmount interest loanTerm extra fuel).payments.flatten,
      0 ≤ r.principal) ∧
    List.Chain' (fun a b : MonthRecord => b.principal ≤ a.principal)
      ((calculate loanAmount interest loanTerm extra fuel).payments.flatten) ∧
    (extra = 0 →
      (outerLoop interest
        (monthlyPayment loanAmount interest ((termYears.getD loanTerm 0) * 12))
        extra fuel ⟨loanAmount, 0⟩).2.principal ≤ EPSILON →
      (calculate loanAmount interest loanTerm extra fuel).payments.flatten ≠ [] →
      (((calculate loanAmount interest loanTerm extra fuel).payments.flatten).getLastD
        ⟨0, 0, 0, 0⟩).principal = 0) := by
  have hn : (termYears.getD loanTerm 0) * 12 ≠ 0 := by
    rw [termYears_getD loanTerm hterm]
    positivity
  have hgt := monthlyPayment_gt_interest loanAmount interest _ hP hr hn
  have hslack : loanAmount * interest / 12 <
      monthlyPayment loanAmount interest ((termYears.getD loanTerm 0) * 12) + extra := by
    linarith
  have hjoin := outerLoop_join interest
    (monthlyPayment loanAmount interest ((termYears.getD loanTerm 0) * 12)) extra fuel
    ⟨loanAmount, 0⟩
  have hbounds := flatRun_records_bounds interest
    (monthlyPayment loanAmount interest ((termYears.getD loanTerm 0) * 12)) extra
    loanAmount (le_of_lt hr) hslack (12 * fuel) ⟨loanAmount, 0⟩ (le_of_lt hP)
    (le_refl _)
  rw [calculate_payments, hjoin.1]
  refine ⟨fun r hrm => (hbounds.1 r hrm).1, hbounds.2, ?_⟩
  intro _ hdone hne
  rw [hjoin.2] at hdone
  rw [flatRun_getLastD interest
    (monthlyPayment loanAmount interest ((termYears.getD loanTerm 0) * 12)) extra
    (12 * fuel) ⟨loanAmount, 0⟩ ⟨0, 0, 0, 0⟩ hne]
  rcases flatRun_final_cases interest
    (monthlyPayment loanAmount interest ((termYears.getD loanTerm 0) * 12)) extra
    (12 * fuel) ⟨loanAmount, 0⟩ with hc | hc | hc
  · exfalso
    have hgt2 := flatRun_ne_nil_gt interest
      (monthlyPayment loanAmount interest ((termYears.getD loanTerm 0) * 12)) extra
      (12 * fuel) ⟨loanAmount, 0⟩ hne
    rw [hc] at hdone
    exact absurd hgt2 (not_lt.2 hdone)
  · exact hc
  · exact absurd hc (not_lt.2 hdone)

/-- Witness for C2 at a small valid loan that pays off in one year. -/
theorem c2_principal_invariants_witness :
    (∀ r ∈ (calculate 1000 (12 / 100) 0 0 1).payments.flatten, 0 ≤ r.principal) ∧
    List.Chain' (fun a b : MonthRecord => b.principal ≤ a.principal)
      ((calculate 1000 (12 / 100) 0 0 1).payments.flatten) ∧
    ((0 : ℚ) = 0 →
      (outerLoop (12 / 100)
        (monthlyPayment 1000 (12 / 100) ((termYears.getD 0 0) * 12))
        0 1 ⟨1000, 0⟩).2.principal ≤ EPSILON →
      (calculate 1000 (12 / 100) 0 0 1).payments.flatten ≠ [] →
      (((calculate 1000 (12 / 100) 0 0 1).payments.flatten).getLastD
        ⟨0, 0, 0, 0⟩).principal = 0) :=
  c2_principal_invariants 1000 (12 / 100) 0 0 1 (by norm_num) (by norm_num)
    (by norm_num) (by norm_num)

/-- **C3.** For every valid input on which the loop has terminated, the
accumulated `totalPaid` equals the principal plus the sum of all monthly
interest portions, up to the at-most-`EPSILON` residue forgiven by the final
snap-to-zero. -/
theorem c3_totalPaid_accounting (loanAmount interest extra : ℚ) (loanTerm fuel : ℕ)
    (hP : 0 < loanAmount) (_hr : 0 < interest) (_hterm : loanTerm < 30)
    (_hext : 0 ≤ extra)
    (hdone : (outerLoop interest
        (monthlyPayment loanAmount interest ((termYears.getD loanTerm 0) * 12))
        extra fuel ⟨loanAmount, 0⟩).2.principal ≤ EPSILON) :
    |(calculate loanAmount interest loanTerm extra fuel).totalPaid -
      (loanAmount +
        (((calculate loanAmount interest loanTerm extra fuel).payments.flatten).map
          MonthRecord.interestPayment).sum)| ≤ EPSILON := by
  have hjoin := outerLoop_join interest
    (monthlyPayment loanAmount interest ((termYears.getD loanTerm 0) * 12)) extra fuel
    ⟨loanAmount, 0⟩
  rw [calculate_totalPaid, calculate_payments, hjoin.1, hjoin.2]
  rw [hjoin.2] at hdone
  have hb := flatRun_totalPaid_bounds interest
    (monthlyPayment loanAmount interest ((termYears.getD loanTerm 0) * 12)) extra
    (12 * fuel) ⟨loanAmount, 0⟩
  have hb1 : (0 : ℚ) + loanAmount - EPSILON ≤
      (flatRun interest
        (monthlyPayment loanAmount interest ((termYears.getD loanTerm 0) * 12)) extra
        (12 * fuel) ⟨loanAmount, 0⟩).2.totalPaid +
      (flatRun interest
        (monthlyPayment loanAmount interest ((termYears.getD loanTerm 0) * 12)) extra
        (12 * fuel) ⟨loanAmount, 0⟩).2.principal -
      (((flatRun interest
        (monthlyPayment loanAmount interest ((termYears.getD loanTerm 0) * 12)) extra
        (12 * fuel) ⟨loanAmount, 0⟩).1.map MonthRecord.interestPayment)).sum := hb.1
  have hb2 : (flatRun interest
        (monthlyPayment loanAmount interest ((termYears.getD loanTerm 0) * 12)) extra
        (12 * fuel) ⟨loanAmount, 0⟩).2.totalPaid +
      (flatRun interest
        (monthlyPayment loanAmount interest ((termYears.getD loanTerm 0) * 12)) extra
        (12 * fuel) ⟨loanAmount, 0⟩).2.principal -
      (((flatRun interest
        (monthlyPayment loanAmount interest ((termYears.getD loanTerm 0) * 12)) extra
        (12 * fuel) ⟨loanAmount, 0⟩).1.map MonthRecord.interestPayment)).sum ≤
      (0 : ℚ) + loanAmount := hb.2
  have hEP : (0 : ℚ) < EPSILON := by norm_num [EPSILON]
  by_cases hne : (flatRun interest
      (monthlyPayment loanAmount interest ((termYears.getD loanTerm 0) * 12)) extra
      (12 * fuel) ⟨loanAmount, 0⟩).1 = []
  · have hstate := flatRun_nil_state interest
      (monthlyPayment loanAmount interest ((termYears.getD loanTerm 0) * 12)) extra
      (12 * fuel) ⟨loanAmount, 0⟩ hne
    rw [hstate] at hdone
    rw [hne, hstate]
    simp only [List.map_nil, List.sum_nil]
    show |(0 : ℚ) - (loanAmount + 0)| ≤ EPSILON
    rw [abs_le]
    constructor <;> simp_all
    linarith
  · have hlast := flatRun_getLastD interest
      (monthlyPayment loanAmount interest ((termYears.getD loanTerm 0) * 12)) extra
      (12 * fuel) ⟨loanAmount, 0⟩ ⟨0, 0, 0, 0⟩ hne
    have hmem := flatRun_mem_zero_or_gt interest
      (monthlyPayment loanAmount interest ((termYears.getD loanTerm 0) * 12)) extra
      (12 * fuel) ⟨loanAmount, 0⟩ _
      (getLastD_mem _ ⟨0, 0, 0, 0⟩ hne)
    rw [hlast] at hmem
    have hzero : (flatRun interest
        (monthlyPayment loanAmount interest ((termYears.getD loanTerm 0) * 12)) extra
        (12 * fuel) ⟨loanAmount, 0⟩).2.principal = 0 := by
      rcases hmem with h | h
      · exact h
      · exact absurd h (not_lt.2 hdone)
    rw [hzero] at hb1 hb2
    rw [abs_le]
    constructor <;> linarith [hb2]

/-- Witness for C3 at a small valid loan that pays off in one year. -/
theorem c3_totalPaid_accounting_witness :
    |(calculate 1000 (12 / 100) 0 0 1).totalPaid -
      (1000 +
        (((calculate 1000 (12 / 100) 0 0 1).payments.flatten).map
          MonthRecord.interestPayment).sum)| ≤ EPSILON :=
  c3_totalPaid_accounting 1000 (12 / 100) 0 0 1 (by norm_num) (by norm_num)
    (by norm_num) (by norm_num) (by with_unfolding_all decide)

/-- **C10.** On every input on which the loop terminates, the final emitted
month record's remaining principal is exactly `0` (any residue of at most
`EPSILON = 0.01` is snapped to zero before the record is emitted), and every
earlier record's remaining principal is strictly greater than `EPSILON`. -/
theorem c10_final_record_zero (loanAmount interest extra : ℚ) (loanTerm fuel : ℕ)
    (hdone : (outerLoop interest
        (monthlyPayment loanAmount interest ((termYears.getD loanTerm 0) * 12))
        extra fuel ⟨loanAmount, 0⟩).2.principal ≤ EPSILON) :
    ((calculate loanAmount interest loanTerm extra fuel).payments.flatten ≠ [] →
      (((calculate loanAmount interest loanTerm extra fuel).payments.flatten).getLastD
        ⟨0, 0, 0, 0⟩).principal = 0) ∧
    (∀ n : ℕ,
      n + 1 <
        ((calculate loanAmount interest loanTerm extra fuel).payments.flatten).length →
      EPSILON <
        (((calculate loanAmount interest loanTerm extra fuel).payments.flatten).getD n
          ⟨0, 0, 0, 0⟩).principal) := by
  have hjoin := outerLoop_join interest
    (monthlyPayment loanAmount interest ((termYears.getD loanTerm 0) * 12)) extra fuel
    ⟨loanAmount, 0⟩
  rw [calculate_payments, hjoin.1]
  rw [hjoin.2] at hdone
  constructor
  · intro hne
    rw [flatRun_getLastD interest
      (monthlyPayment loanAmount interest ((termYears.getD loanTerm 0) * 12)) extra
      (12 * fuel) ⟨loanAmount, 0⟩ ⟨0, 0, 0, 0⟩ hne]
    rcases flatRun_final_cases interest
      (monthlyPayment loanAmount interest ((termYears.getD loanTerm 0) * 12)) extra
      (12 * fuel) ⟨loanAmount, 0⟩ with hc | hc | hc
    · exfalso
      have hgt2 := flatRun_ne_nil_gt interest
        (monthlyPayment loanAmount interest ((termYears.getD loanTerm 0) * 12)) extra
        (12 * fuel) ⟨loanAmount, 0⟩ hne
      rw [hc] at hdone
      exact absurd hgt2 (not_lt.2 hdone)
    · exact hc
    · exact absurd hc (not_lt.2 hdone)
  · intro n hlen
    exact flatRun_earlier_gt interest
      (monthlyPayment loanAmount interest ((termYears.getD loanTerm 0) * 12)) extra
      (12 * fuel) ⟨loanAmount, 0⟩ n ⟨0, 0, 0, 0⟩ hlen

/-- Witness for C10 at a small valid loan that pays off in one year. -/
theorem c10_final_record_zero_witness :
    ((calculate 1000 (12 / 100) 0 0 1).payments.flatten ≠ [] →
      (((calculate 1000 (12 / 100) 0 0 1).payments.flatten).getLastD
        ⟨0, 0, 0, 0⟩).principal = 0) ∧
    (∀ n : ℕ,
      n + 1 < ((calculate 1000 (12 / 100) 0 0 1).payments.flatten).length →
      EPSILON <
        (((calculate 1000 (12 / 100) 0 0 1).payments.flatten).getD n
          ⟨0, 0, 0, 0⟩).principal) :=
  c10_final_record_zero 1000 (12 / 100) 0 0 1 (by with_unfolding_all decide)

/-- **C4 (amended).** For every valid input the number of yearly entries is
at most `termYears = loanTerm + 1`; with no extra payment it equals
`termYears` exactly whenever the fixed payment exceeds
`EPSILON * (1 + interest/12)` — equivalently, whenever the scheduled
final-month balance exceeds the 1-cent snap threshold.  (For sub-cent
payments the snap can end the schedule early, see the counterexample.) -/
theorem c4_totalYears (loanAmount interest extra : ℚ) (loanTerm F : ℕ)
    (hP : 0 < loanAmount) (hr : 0 < interest) (hterm : loanTerm < 30)
    (hext : 0 ≤ extra) (hF : loanTerm + 1 ≤ F) :
    (calculate loanAmount interest loanTerm extra F).totalYears ≤ loanTerm + 1 ∧
    (extra = 0 →
      EPSILON * (1 + interest / 12) <
        monthlyPayment loanAmount interest ((loanTerm + 1) * 12) →
      (calculate loanAmount interest loanTerm extra F).totalYears = loanTerm + 1) := by
  have hn : (termYears.getD loanTerm 0) * 12 = (loanTerm + 1) * 12 := by
    rw [termYears_getD loanTerm hterm]
  rw [calculate_totalYears, hn]
  set pay := monthlyPayment loanAmount interest ((loanTerm + 1) * 12) with hpaydef
  have hnpos : 0 < (loanTerm + 1) * 12 := by positivity
  have hzero : annuityBalance loanAmount interest pay ((loanTerm + 1) * 12) = 0 :=
    annuityBalance_payoff loanAmount interest ((loanTerm + 1) * 12) hr (by positivity)
  have hzero12 : annuityBalance loanAmount interest pay (12 * (loanTerm + 1)) = 0 := by
    rw [mul_comm 12 (loanTerm + 1)]
    exact hzero
  have hEP : (0 : ℚ) < EPSILON := by norm_num [EPSILON]
  have hle12 : (runState interest pay extra (12 * (loanTerm + 1))
      ⟨loanAmount, 0⟩).principal ≤ EPSILON := by
    rcases flatRun_le_annuity interest pay extra loanAmount hr hext
      (12 * (loanTerm + 1)) with h | h
    · exact h
    · rw [hzero12] at h
      linarith
  constructor
  · exact outerLoop_length_le interest pay extra (loanTerm + 1) F ⟨loanAmount, 0⟩ hle12
  · intro hext0 hmp
    subst hext0
    have hgt := monthlyPayment_gt_interest loanAmount interest ((loanTerm + 1) * 12)
      hP hr (by positivity)
    rw [← hpaydef] at hgt
    have h1i : (0 : ℚ) < 1 + interest / 12 := by positivity
    obtain ⟨m, hm⟩ : ∃ m, (loanTerm + 1) * 12 = m + 1 := ⟨(loanTerm + 1) * 12 - 1, by omega⟩
    have hzm : annuityBalance loanAmount interest pay (m + 1) = 0 := by
      rw [← hm]
      exact hzero
    have hqm : annuityBalance loanAmount interest pay m = pay / (1 + interest / 12) :=
      annuityBalance_pred loanAmount interest pay m (ne_of_gt h1i) hzm
    have hqmE : EPSILON < annuityBalance loanAmount interest pay m := by
      rw [hqm, lt_div_iff₀ h1i]
      exact hmp
    have hq : ∀ j, j < (loanTerm + 1) * 12 →
        EPSILON < annuityBalance loanAmount interest pay j := by
      intro j hj
      have hjm : j ≤ m := by omega
      exact lt_of_lt_of_le hqmE
        (annuityBalance_antitone loanAmount interest pay (le_of_lt hr) hgt j m hjm)
    have htr := flatRun_tracks_annuity interest pay loanAmount ((loanTerm + 1) * 12) hq
    have hrun : ∀ k, k < 12 * (loanTerm + 1) →
        EPSILON < (runState interest pay 0 k ⟨loanAmount, 0⟩).principal := by
      intro k hk
      have hk2 : k < (loanTerm + 1) * 12 := by omega
      rw [htr k hk2]
      exact hq k hk2
    have hstop : (runState interest pay 0 (12 * (loanTerm + 1))
        ⟨loanAmount, 0⟩).principal ≤ EPSILON := by
      have hq2 : ∀ j, j < m + 1 → EPSILON < annuityBalance loanAmount interest pay j := by
        intro j hj
        exact hq j (by omega)
      have hz0 := flatRun_payoff_exact interest pay loanAmount m hq2 hzm
      have h12T : 12 * (loanTerm + 1) = m + 1 := by omega
      rw [h12T, hz0]
      linarith
    exact outerLoop_length_eq interest pay 0 (loanTerm + 1) F ⟨loanAmount, 0⟩
      hrun hstop hF

/-- Witness for C4 at a small valid loan that pays off in exactly one year. -/
theorem c4_totalYears_witness :
    (calculate 1000 (12 / 100) 0 0 1).totalYears ≤ 0 + 1 ∧
    ((0 : ℚ) = 0 →
      EPSILON * (1 + (12 / 100 : ℚ) / 12) <
        monthlyPayment 1000 (12 / 100) ((0 + 1) * 12) →
      (calculate 1000 (12 / 100) 0 0 1).totalYears = 0 + 1) :=
  c4_totalYears 1000 (12 / 100) 0 0 1 (by norm_num) (by norm_num) (by norm_num)
    (by norm_num) (by norm_num)

set_option maxRecDepth 100000 in
/-- **C4 counterexample.** A tiny but valid loan — principal `0.02`, rate
6.09%, 30-year term, no extra payment — terminates with only 22 yearly
entries instead of 30: the 1-cent snap ends the schedule eight years early,
far from the final year boundary. -/
theorem c4_counterexample :
    (0 : ℚ) < 2 / 100 ∧ (0 : ℚ) < 609 / 10000 ∧
    (outerLoop (609 / 10000)
      (monthlyPayment (2 / 100) (609 / 10000) ((termYears.getD 29 0) * 12))
      0 30 ⟨2 / 100, 0⟩).2.principal ≤ EPSILON ∧
    (calculate (2 / 100) (609 / 10000) 29 0 30).totalYears = 22 ∧
    ¬ (calculate (2 / 100) (609 / 10000) 29 0 30).totalYears = 30 := by
  with_unfolding_all decide

/-- **C6 (amended).** The code has no defensive iteration cap and no
`UnamortizableLoanError`: on inputs where the computed payment plus the extra
payment cannot cover interest (with a positive rate this requires
`payment + extra ≤ 0`, e.g. a negative extra payment), the loop makes no
progress and never exits — after any number `k` of months the principal still
exceeds `EPSILON` and `k` month records have been emitted. -/
theorem c6_no_cap (loanAmount interest extra : ℚ) (loanTerm k : ℕ)
    (hr : 0 < interest) (hP : EPSILON < loanAmount)
    (hpe : monthlyPayment loanAmount interest ((termYears.getD loanTerm 0) * 12) +
      extra ≤ 0) :
    EPSILON < (runState interest
      (monthlyPayment loanAmount interest ((termYears.getD loanTerm 0) * 12)) extra k
      ⟨loanAmount, 0⟩).principal ∧
    (flatRun interest
      (monthlyPayment loanAmount interest ((termYears.getD loanTerm 0) * 12)) extra k
      ⟨loanAmount, 0⟩).1.length = k := by
  have h := flatRun_no_progress interest
    (monthlyPayment loanAmount interest ((termYears.getD loanTerm 0) * 12)) extra hr hpe
    k ⟨loanAmount, 0⟩ hP
  exact ⟨h.2.1, h.2.2⟩

/-- Witness for C6 beyond the suggested 1200-month cap. -/
theorem c6_no_cap_witness :
    EPSILON < (runState (12 / 100)
      (monthlyPayment 1000 (12 / 100) ((termYears.getD 0 0) * 12)) (-1000) 1201
      ⟨1000, 0⟩).principal ∧
    (flatRun (12 / 100)
      (monthlyPayment 1000 (12 / 100) ((termYears.getD 0 0) * 12)) (-1000) 1201
      ⟨1000, 0⟩).1.length = 1201 :=
  c6_no_cap 1000 (12 / 100) (-1000) 0 1201 (by norm_num)
    (by with_unfolding_all decide) (by with_unfolding_all decide)

/-- **C6 counterexample.** At a concrete input in the claim's scope (payment
plus extra cannot reduce the principal) the loop passes the suggested cap of
100 years × 12 months with no failure: after 1200 iterations the principal
still exceeds `EPSILON` and 1200 records have been emitted — there is no cap
and no `UnamortizableLoanError` anywhere in the result. -/
theorem c6_counterexample :
    monthlyPayment 1000 (12 / 100) ((termYears.getD 0 0) * 12) + (-1000) ≤ 0 ∧
    EPSILON < (runState (12 / 100)
      (monthlyPayment 1000 (12 / 100) ((termYears.getD 0 0) * 12)) (-1000) 1200
      ⟨1000, 0⟩).principal ∧
    (flatRun (12 / 100)
      (monthlyPayment 1000 (12 / 100) ((termYears.getD 0 0) * 12)) (-1000) 1200
      ⟨1000, 0⟩).1.length = 1200 := by
  have hpe : monthlyPayment 1000 (12 / 100) ((termYears.getD 0 0) * 12) + (-1000) ≤ 0 := by
    with_unfolding_all decide
  have h := flatRun_no_progress (12 / 100)
    (monthlyPayment 1000 (12 / 100) ((termYears.getD 0 0) * 12)) (-1000)
    (by norm_num) hpe 1200 ⟨1000, 0⟩ (by with_unfolding_all decide)
  exact ⟨hpe, h.2.1, h.2.2⟩

set_option maxRecDepth 100000 in
/-- **C8 counterexample.** The engine's fixed payment for scenario A
(500000 at 6.09% over 30 years) is more than 3 currency units below the
claimed value 3029.85. -/
theorem c8_counterexample :
    (3 : ℚ) < 302985 / 100 - (calculate 500000 (609 / 10000) 29 0 30).monthlyPayment := by
  with_unfolding_all decide

set_option maxRecDepth 100000 in
/-- **C8 (amended).** Scenario A — principal 500000, rate 6.09%, 30 years, no
extra payment — yields a fixed monthly payment of 3026.74… (approximately
3026.74, not 3029.85) and exactly 30 yearly entries, with the loop
terminated. -/
theorem c8_scenario_a :
    302674 / 100 ≤ (calculate 500000 (609 / 10000) 29 0 30).monthlyPayment ∧
    (calculate 500000 (609 / 10000) 29 0 30).monthlyPayment < 302675 / 100 ∧
    (calculate 500000 (609 / 10000) 29 0 30).totalYears = 30 ∧
    (outerLoop (609 / 10000)
      (monthlyPayment 500000 (609 / 10000) ((termYears.getD 29 0) * 12))
      0 30 ⟨500000, 0⟩).2.principal ≤ EPSILON := by
  with_unfolding_all decide

set_option maxRecDepth 100000 in
/-- **C9.** Scenario B — the same loan as scenario A with an extra 500 per
month — pays off in strictly fewer than 30 yearly entries and with a strictly
smaller `totalPaid` than scenario A; both runs have terminated. -/
theorem c9_extra_payment :
    (calculate 500000 (609 / 10000) 29 500 30).totalYears < 30 ∧
    (calculate 500000 (609 / 10000) 29 500 30).totalPaid <
      (calculate 500000 (609 / 10000) 29 0 30).totalPaid ∧
    (outerLoop (609 / 10000)
      (monthlyPayment 500000 (609 / 10000) ((termYears.getD 29 0) * 12))
      500 30 ⟨500000, 0⟩).2.principal ≤ EPSILON ∧
    (outerLoop (609 / 10000)
      (monthlyPayment 500000 (609 / 10000) ((termYears.getD 29 0) * 12))
      0 30 ⟨500000, 0⟩).2.principal ≤ EPSILON := by
  have hjoinB := outerLoop_join (609 / 10000)
    (monthlyPayment 500000 (609 / 10000) ((termYears.getD 29 0) * 12)) 500 30
    ⟨500000, 0⟩
  have hjoinA := outerLoop_join (609 / 10000)
    (monthlyPayment 500000 (609 / 10000) ((termYears.getD 29 0) * 12)) 0 30
    ⟨500000, 0⟩
  have hlenA : (flatRun (609 / 10000)
      (monthlyPayment 500000 (609 / 10000) ((termYears.getD 29 0) * 12)) 0 (12 * 30)
      ⟨500000, 0⟩).1.length = 360 := by
    with_unfolding_all decide
  have hlenB : (flatRun (609 / 10000)
      (monthlyPayment 500000 (609 / 10000) ((termYears.getD 29 0) * 12)) 500 (12 * 30)
      ⟨500000, 0⟩).1.length = 252 := by
    with_unfolding_all decide
  have hpayA : (302674 / 100 : ℚ) ≤
      monthlyPayment 500000 (609 / 10000) ((termYears.getD 29 0) * 12) := by
    with_unfolding_all decide
  have hgt : (500000 : ℚ) * (609 / 10000) / 12 <
      monthlyPayment 500000 (609 / 10000) ((termYears.getD 29 0) * 12) + 0 := by
    have := monthlyPayment_gt_interest 500000 (609 / 10000)
      ((termYears.getD 29 0) * 12) (by norm_num) (by norm_num) (by norm_num [termYears])
    linarith
  have htpA := flatRun_totalPaid_ge_months (609 / 10000)
    (monthlyPayment 500000 (609 / 10000) ((termYears.getD 29 0) * 12)) 0 500000
    (by norm_num) hgt (12 * 30) ⟨500000, 0⟩ (by norm_num) (by norm_num)
  have htpB := flatRun_totalPaid_le_months (609 / 10000)
    (monthlyPayment 500000 (609 / 10000) ((termYears.getD 29 0) * 12)) 500 (12 * 30)
    ⟨500000, 0⟩
  rw [hlenA] at htpA
  rw [hlenB] at htpB
  have htpA2 : (0 : ℚ) + ((360 - 1 : ℕ) : ℚ) *
      (monthlyPayment 500000 (609 / 10000) ((termYears.getD 29 0) * 12) + 0) ≤
      (flatRun (609 / 10000)
        (monthlyPayment 500000 (609 / 10000) ((termYears.getD 29 0) * 12)) 0 (12 * 30)
        ⟨500000, 0⟩).2.totalPaid := htpA
  have htpB2 : (flatRun (609 / 10000)
      (monthlyPayment 500000 (609 / 10000) ((termYears.getD 29 0) * 12)) 500 (12 * 30)
      ⟨500000, 0⟩).2.totalPaid ≤
      (0 : ℚ) + ((252 : ℕ) : ℚ) *
        (monthlyPayment 500000 (609 / 10000) ((termYears.getD 29 0) * 12) + 500) := htpB
  rw [show ((360 - 1 : ℕ) : ℚ) = 359 from by norm_num] at htpA2
  rw [show ((252 : ℕ) : ℚ) = 252 from by norm_num] at htpB2
  refine ⟨?_, ?_, ?_, ?_⟩
  · with_unfolding_all decide
  · rw [calculate_totalPaid, calculate_totalPaid, hjoinA.2, hjoinB.2]
    linarith
  · with_unfolding_all decide
  · with_unfolding_all decide

end Mortgage
